import Mathlib

/-!
Shallow embedding of `blocker` (src/lib.rs): a scoped borrow broadcaster.
`Blocker<'a, T>` (the guard) holds a borrowed pointer `data: &'a T`, an
inline counter `ref_count: usize`, a `Mutex<()>` and a `Condvar`.
`Blockref<T>` (the handle) holds four raw pointers into the guard.

Modelling conventions:
  * A machine address is a `Nat`.  The guard's immutable pointer layout
    (where its `data` referent, its `ref_count` field, its mutex and its
    condvar live) is recorded in the `Blocker` structure; the mutable
    contents of memory (the `T` cells, the `usize` counter cells, and the
    poison bit of each mutex) live in `Mem`.
  * `lock().unwrap()` panics iff the mutex is poisoned; a panic is `none`
    (for `Option`-valued operations) or `DropResult.panicked`.
  * Concurrency around the teardown loop of `Drop for Blocker` is modelled
    by the schedule of wake events: the list of values the loop reads from
    `self.ref_count` at each return from `cond.wait`.  An empty list means
    no wake (neither a `notify_one` from a handle release nor a spurious
    wakeup) ever arrives.
  * The two critical sections (`Blockref::new` and `Drop for Blockref`)
    are additionally given at micro-step granularity (lock / incr / decr /
    notify / unlock) to express the lock discipline on the counter.
-/

/-- A machine address (the model of a raw pointer / reference). -/
abbrev Addr := Nat

/-- Mutable memory: contents of the `T` cells, contents of the `usize`
counter cells, and the poison bit of each mutex.  The unit payload of
`Mutex<()>` carries no data, so only the poison bit is state. -/
structure Mem (α : Type) where
  heap : Addr → α
  counters : Addr → Nat
  poisoned : Addr → Bool

/-- `Blocker<'a, T>` (src/lib.rs lines 5-10): `data` is the address of the
borrowed value (`&'a T`); `refCountPtr`, `mutexPtr`, `condPtr` are the
addresses of the guard's own `ref_count`, `mutex` and `cond` fields, whose
mutable contents are looked up in a `Mem`. -/
structure Blocker where
  data : Addr
  refCountPtr : Addr
  mutexPtr : Addr
  condPtr : Addr
deriving DecidableEq

/-- `Blockref<T>` (src/lib.rs lines 43-48): four raw pointers. -/
structure Blockref where
  data : Addr
  ref_count : Addr
  mutex : Addr
  cond : Addr
deriving DecidableEq

/-- Write `v` to the counter cell at address `rc`. -/
def Mem.setCounter {α : Type} (m : Mem α) (rc : Addr) (v : Nat) : Mem α :=
  { m with counters := Function.update m.counters rc v }

/-- `mutex.lock().unwrap()`: succeeds (`some ()`) unless the mutex at that
address is poisoned, in which case `unwrap` panics (`none`). -/
def lockUnwrap {α : Type} (m : Mem α) (mx : Addr) : Option Unit :=
  if m.poisoned mx then none else some ()

/-- `Blocker::new` (lines 12-19): records the four addresses, initializes
`ref_count: 0` and a fresh (unpoisoned) `Mutex::new(())`. -/
def Blocker.new {α : Type} (data rc mx cv : Addr) (m : Mem α) :
    Blocker × Mem α :=
  (⟨data, rc, mx, cv⟩,
   { m with counters := Function.update m.counters rc 0,
            poisoned := Function.update m.poisoned mx false })

/-- `Blockref::new` (lines 49-66): `(*mutex).lock().unwrap()` (panic when
poisoned), then `*ref_count += 1` under the lock, then return the handle
built from exactly the four pointers passed in. -/
def Blockref.new {α : Type} (data rc mx cv : Addr) (m : Mem α) :
    Option (Blockref × Mem α) :=
  (lockUnwrap m mx).map fun _ =>
    (⟨data, rc, mx, cv⟩, m.setCounter rc (m.counters rc + 1))

/-- `Blocker::get` (lines 20-29): calls `Blockref::new(self.data,
&self.ref_count, &self.mutex, &self.cond)` — the handle receives the
addresses of the guard's own fields. -/
def Blocker.get {α : Type} (b : Blocker) (m : Mem α) :
    Option (Blockref × Mem α) :=
  Blockref.new b.data b.refCountPtr b.mutexPtr b.condPtr m

/-- Iterated `Blocker::get`, keeping only the memory (the handles returned
by the successive calls are all equal, see `Blocker.get`). -/
def Blocker.getN {α : Type} (b : Blocker) : Nat → Mem α → Option (Mem α)
  | 0, m => some m
  | n + 1, m => (Blocker.get b m).bind fun p => Blocker.getN b n p.2

/-- `Drop for Blockref` (lines 68-75): `(*self.mutex).lock().unwrap()`
(panic when poisoned), then `*self.ref_count -= 1` and
`(*self.cond).notify_one()` under the lock.  The second component returned
is the list of condvar addresses notified by this call. -/
def Blockref.drop {α : Type} (r : Blockref) (m : Mem α) :
    Option (Mem α × List Addr) :=
  (lockUnwrap m r.mutex).map fun _ =>
    (m.setCounter r.ref_count (m.counters r.ref_count - 1), [r.cond])

/-- The loop of `Drop for Blocker` (lines 34-39), fed the schedule of wake
events: `wakes` lists the value read from `self.ref_count` at each return
from `cond.wait`, in order.  Mirroring the source, the predicate
`ref_count == 0` is checked only AFTER each wait, never before the first
one, so the value of the counter at loop entry is not an input at all.
Returns `some k` when the loop breaks at the k-th wake (the first wake
observing zero), `none` when the schedule is exhausted with the loop still
parked on the condvar. -/
def waitLoop : List Nat → Option Nat
  | [] => none
  | c :: rest => if c = 0 then some 1 else (waitLoop rest).map (· + 1)

/-- Outcome of `Drop for Blocker`. -/
inductive DropResult : Type
  | returned : Nat → DropResult
  | blocked : DropResult
  | panicked : DropResult
deriving DecidableEq

/-- `Drop for Blocker` (lines 31-41): `self.mutex.lock().unwrap()` (panic
when poisoned), then the wait loop.  `DropResult.returned k` means the drop
completed after exactly `k` waits on the condvar; `DropResult.blocked`
means the wake schedule ran out with the drop still suspended. -/
def Blocker.drop {α : Type} (b : Blocker) (m : Mem α) (wakes : List Nat) :
    DropResult :=
  if m.poisoned b.mutexPtr then .panicked
  else
    match waitLoop wakes with
    | some k => .returned k
    | none => .blocked

/-- `Deref for Blockref` (lines 77-82): read the `T` cell the handle's
`data` pointer designates.  Read-only: returns a value, takes no memory
update. -/
def Blockref.deref {α : Type} (r : Blockref) (m : Mem α) : α :=
  m.heap r.data

/-! Micro-step view of the two critical sections, for the lock discipline
on the counter.  `Blockref::new` is lock; incr; unlock (the `_lock` guard
drops at end of scope); `Drop for Blockref` is lock; decr; notify; unlock
(`notify_one` runs while `_lock` is still held). -/

/-- The two counter operations a handle performs on the shared core. -/
inductive Op : Type
  | acquire : Op
  | release : Op
deriving DecidableEq

/-- One atomic micro-step inside a critical section. -/
inductive MicroStep : Type
  | lock : MicroStep
  | incr : MicroStep
  | decr : MicroStep
  | notify : MicroStep
  | unlock : MicroStep
deriving DecidableEq

/-- The micro-steps of each operation, in source order. -/
def opSteps : Op → List MicroStep
  | .acquire => [.lock, .incr, .unlock]
  | .release => [.lock, .decr, .notify, .unlock]

/-- Micro-steps of a whole operation sequence. -/
def opsSteps : List Op → List MicroStep
  | [] => []
  | op :: rest => opSteps op ++ opsSteps rest

/-- State of the shared core at micro-step granularity: the counter value
and whether the mutex is currently held. -/
structure CoreSt where
  count : Nat
  held : Bool
deriving DecidableEq

/-- Effect of one micro-step. -/
def microStep : MicroStep → CoreSt → CoreSt
  | .lock, s => ⟨s.count, true⟩
  | .unlock, s => ⟨s.count, false⟩
  | .incr, s => ⟨s.count + 1, s.held⟩
  | .decr, s => ⟨s.count - 1, s.held⟩
  | .notify, s => s

/-- Run a list of micro-steps. -/
def microRun : List MicroStep → CoreSt → CoreSt
  | [], s => s
  | st :: rest, s => microRun rest (microStep st s)

/-- Whether a micro-step writes the counter. -/
def mutatesCount : MicroStep → Bool
  | .incr => true
  | .decr => true
  | _ => false

/-- `true` iff every counter write along the run happens while the mutex
is held. -/
def lockDisciplined : List MicroStep → CoreSt → Bool
  | [], _ => true
  | st :: rest, s =>
      (!mutatesCount st || s.held) && lockDisciplined rest (microStep st s)

/-- `true` iff every decrement along the run acts on a positive counter
(no `usize` underflow; the mathematical count never goes below zero). -/
def noUnderflow : List MicroStep → CoreSt → Bool
  | [], _ => true
  | st :: rest, s =>
      (if st = .decr then decide (0 < s.count) else true) &&
        noUnderflow rest (microStep st s)

/-! Per-handle lifecycle state machine (spec section 4.3). -/

/-- Lifecycle states of a `Blockref`. -/
inductive HandleState : Type
  | created : HandleState
  | active : HandleState
  | released : HandleState
deriving DecidableEq

/-- Lifecycle transitions: a handle whose acquire has run becomes active,
and an active handle is released (its `Drop` runs) exactly once; `Drop`
cannot run on an already-dropped value, so no transition leaves
`released`. -/
inductive HandleStep : HandleState → HandleState → Prop
  | activate : HandleStep .created .active
  | release : HandleStep .active .released

/-- A concrete memory over `Nat` cells, used to instantiate the theorems
below at concrete inputs: every `T` cell holds `0`, every counter cell
holds `0`, and no mutex is poisoned. -/
def initMem : Mem Nat :=
  ⟨fun _ => 0, fun _ => 0, fun _ => false⟩

/-- A concrete memory whose counter cells hold `1`. -/
def oneMem : Mem Nat :=
  ⟨fun _ => 0, fun _ => 1, fun _ => false⟩

/-- A concrete memory in which every mutex is poisoned. -/
def poisonMem : Mem Nat :=
  ⟨fun _ => 0, fun _ => 1, fun _ => true⟩

/-! Lemmas about the teardown wait loop. -/

/-- The loop performs at least one wait before it can break. -/
theorem waitLoop_one_le (l : List Nat) (k : Nat) (h : waitLoop l = some k) :
    1 ≤ k := by
  induction l generalizing k with
  | nil => simp [waitLoop] at h
  | cons c rest ih =>
    rw [waitLoop] at h
    by_cases hc : c = 0
    · simp [hc] at h
      omega
    · simp [hc] at h
      obtain ⟨j, hj, rfl⟩ := h
      omega

/-- If every observed counter value is positive, the loop never breaks. -/
theorem waitLoop_none_of_pos (l : List Nat) (h : ∀ c ∈ l, 0 < c) :
    waitLoop l = none := by
  induction l with
  | nil => rfl
  | cons c rest ih =>
    have hc : c ≠ 0 := Nat.pos_iff_ne_zero.mp (h c (List.mem_cons_self c rest))
    rw [waitLoop, if_neg hc, ih fun x hx => h x (List.mem_cons_of_mem c hx)]
    rfl

/-- When the loop breaks at the `k`-th wake, that wake observed the counter
at zero and no earlier wake did. -/
theorem waitLoop_breaks_at_zero (l : List Nat) (k : Nat) (h : waitLoop l = some k) :
    l[k - 1]? = some 0 ∧ ∀ i, i + 1 < k → l[i]? ≠ some 0 := by
  induction l generalizing k with
  | nil => simp [waitLoop] at h
  | cons c rest ih =>
    rw [waitLoop] at h
    by_cases hc : c = 0
    · simp [hc] at h
      subst h
      simp [hc]
    · simp [hc] at h
      obtain ⟨j, hj, rfl⟩ := h
      have h1 : 1 ≤ j := waitLoop_one_le rest j hj
      obtain ⟨hz, hpre⟩ := ih j hj
      refine ⟨?_, ?_⟩
      · have : j + 1 - 1 = (j - 1) + 1 := by omega
        rw [this, List.getElem?_cons_succ]
        exact hz
      · intro i hi
        match i with
        | 0 => simpa using hc
        | Nat.succ i =>
          rw [List.getElem?_cons_succ]
          exact hpre i (by omega)

/-- Wakes that observe a positive counter only shift the break point; they
never cause the loop to break. -/
theorem waitLoop_append_pos (junk rest : List Nat) (h : ∀ c ∈ junk, 0 < c) :
    waitLoop (junk ++ rest) = (waitLoop rest).map (· + junk.length) := by
  induction junk with
  | nil =>
    cases hw : waitLoop rest <;> simp [hw]
  | cons c tl ih =>
    have hc : c ≠ 0 := Nat.pos_iff_ne_zero.mp (h c (List.mem_cons_self c tl))
    rw [List.cons_append, waitLoop, if_neg hc,
      ih fun x hx => h x (List.mem_cons_of_mem c hx)]
    cases waitLoop rest with
    | none => rfl
    | some j =>
      simp [Option.map]
      omega

/-! Claim theorems about the teardown path. -/

/-- C1: the code at the no-handle input.  After `Blocker::new` the counter
is zero and, with no handle ever created, no `notify_one` is ever executed,
so the wake schedule of the drop is empty — and the drop stays suspended on
the condvar (`DropResult.blocked`) instead of returning immediately, because
the loop in `Drop for Blocker` waits before its first check of
`ref_count == 0`. -/
theorem noHandle_teardown_stays_blocked :
    (Blocker.new 0 1 2 3 initMem).2.counters
        (Blocker.new 0 1 2 3 initMem).1.refCountPtr = 0
    ∧ Blocker.drop (Blocker.new 0 1 2 3 initMem).1
        (Blocker.new 0 1 2 3 initMem).2 [] = DropResult.blocked := by
  constructor <;> rfl

/-- C9: the drop of a `Blocker` checks `ref_count` only after each return
from `cond.wait`, never before the first one: every completed teardown has
performed at least one wait, and a teardown that receives no wake stays
suspended even when the counter is already zero at entry. -/
theorem teardown_waits_before_first_check (b : Blocker) (m : Mem Nat)
    (hp : m.poisoned b.mutexPtr = false) :
    (∀ wakes k, Blocker.drop b m wakes = DropResult.returned k → 1 ≤ k)
    ∧ (m.counters b.refCountPtr = 0 →
        Blocker.drop b m [] = DropResult.blocked) := by
  constructor
  · intro wakes k h
    rw [Blocker.drop, if_neg (by simp [hp])] at h
    cases hw : waitLoop wakes with
    | none => rw [hw] at h; cases h
    | some j =>
      rw [hw] at h
      cases h
      exact waitLoop_one_le wakes k hw
  · intro _
    rw [Blocker.drop, if_neg (by simp [hp])]
    rfl

/-- Witness for C9 at a concrete guard and memory. -/
theorem teardown_waits_before_first_check_witness :
    1 ≤ 2 ∧ Blocker.drop (⟨0, 1, 2, 3⟩ : Blocker) initMem [] = DropResult.blocked :=
  ⟨(teardown_waits_before_first_check ⟨0, 1, 2, 3⟩ initMem rfl).1 [5, 0] 2 (by decide),
   (teardown_waits_before_first_check ⟨0, 1, 2, 3⟩ initMem rfl).2 rfl⟩

/-- C2: teardown never returns while the counter is positive: if every wake
observes a positive counter the drop stays suspended, and when the drop does
return after `k` waits, the `k`-th wake observed the counter at zero (the
state left by the last handle's release) and no earlier wake did. -/
theorem teardown_returns_only_at_zero (b : Blocker) (m : Mem Nat)
    (wakes : List Nat) (hp : m.poisoned b.mutexPtr = false) :
    ((∀ c ∈ wakes, 0 < c) → Blocker.drop b m wakes = DropResult.blocked)
    ∧ (∀ k, Blocker.drop b m wakes = DropResult.returned k →
        wakes[k - 1]? = some 0 ∧ ∀ i, i + 1 < k → wakes[i]? ≠ some 0) := by
  constructor
  · intro hpos
    rw [Blocker.drop, if_neg (by simp [hp]), waitLoop_none_of_pos wakes hpos]
  · intro k h
    rw [Blocker.drop, if_neg (by simp [hp])] at h
    cases hw : waitLoop wakes with
    | none => rw [hw] at h; cases h
    | some j =>
      rw [hw] at h
      cases h
      exact waitLoop_breaks_at_zero wakes k hw

/-- Witness for C2 at concrete wake schedules. -/
theorem teardown_returns_only_at_zero_witness :
    Blocker.drop (⟨0, 1, 2, 3⟩ : Blocker) initMem [2, 1] = DropResult.blocked
    ∧ [2, 1, 0][3 - 1]? = some 0 :=
  ⟨(teardown_returns_only_at_zero ⟨0, 1, 2, 3⟩ initMem [2, 1] rfl).1 (by decide),
   ((teardown_returns_only_at_zero ⟨0, 1, 2, 3⟩ initMem [2, 1, 0] rfl).2 3
      (by decide)).1⟩

/-- C6: the loop re-checks the predicate after every wake, so wakes that
observe a positive counter — spurious wakeups or notifications sent while
handles are still live — never cause an early return: alone they leave the
drop suspended, and prepended to any schedule they only shift the break
point by their number. -/
theorem teardown_tolerates_spurious_wakes (b : Blocker) (m : Mem Nat)
    (junk rest : List Nat) (hp : m.poisoned b.mutexPtr = false)
    (hpos : ∀ c ∈ junk, 0 < c) :
    Blocker.drop b m junk = DropResult.blocked
    ∧ (∀ k, Blocker.drop b m (junk ++ rest) = DropResult.returned k →
        junk.length < k
        ∧ Blocker.drop b m rest = DropResult.returned (k - junk.length)) := by
  constructor
  · rw [Blocker.drop, if_neg (by simp [hp]), waitLoop_none_of_pos junk hpos]
  · intro k h
    rw [Blocker.drop, if_neg (by simp [hp]), waitLoop_append_pos junk rest hpos] at h
    rw [Blocker.drop, if_neg (by simp [hp])]
    cases hw : waitLoop rest with
    | none => rw [hw] at h; cases h
    | some j =>
      rw [hw] at h
      simp [Option.map] at h
      have h1 : 1 ≤ j := waitLoop_one_le rest j hw
      constructor
      · omega
      · have : k - junk.length = j := by omega
        rw [this]

/-! Lemmas about `get` and the memory model. -/

/-- On an unpoisoned mutex, `Blocker::get` returns the handle built from
the guard's own four addresses and bumps the guard's counter cell. -/
theorem get_eq_of_not_poisoned {α : Type} (b : Blocker) (m : Mem α)
    (hp : m.poisoned b.mutexPtr = false) :
    Blocker.get b m =
      some (⟨b.data, b.refCountPtr, b.mutexPtr, b.condPtr⟩,
        m.setCounter b.refCountPtr (m.counters b.refCountPtr + 1)) := by
  simp [Blocker.get, Blockref.new, lockUnwrap, hp]

/-- Iterating `get` n times from an unpoisoned memory succeeds and leaves
the guard's counter cell at its initial value plus n. -/
theorem getN_counts (b : Blocker) (n : Nat) (m : Mem Nat)
    (hp : m.poisoned b.mutexPtr = false) :
    (Blocker.getN b n m).map (fun mm => mm.counters b.refCountPtr)
      = some (m.counters b.refCountPtr + n) := by
  induction n generalizing m with
  | zero => simp [Blocker.getN]
  | succ n ih =>
    rw [Blocker.getN, get_eq_of_not_poisoned b m hp]
    have hstep := ih (m.setCounter b.refCountPtr (m.counters b.refCountPtr + 1)) hp
    rw [Option.some_bind, hstep]
    simp [Mem.setCounter, Function.update_same]
    omega

/-- Witness for C6 at a concrete wake schedule. -/
theorem teardown_tolerates_spurious_wakes_witness :
    Blocker.drop (⟨0, 1, 2, 3⟩ : Blocker) initMem [3, 1] = DropResult.blocked
    ∧ (2 < 3
        ∧ Blocker.drop (⟨0, 1, 2, 3⟩ : Blocker) initMem [0]
            = DropResult.returned (3 - 2)) :=
  ⟨(teardown_tolerates_spurious_wakes ⟨0, 1, 2, 3⟩ initMem [3, 1] [0] rfl
      (by decide)).1,
   (teardown_tolerates_spurious_wakes ⟨0, 1, 2, 3⟩ initMem [3, 1] [0] rfl
      (by decide)).2 3 (by decide)⟩

/-- C4: each `get` on a live guard increments the shared counter by exactly
one under the mutex, and the returned handle's four pointers alias exactly
the guard's value pointer and the guard's own counter, mutex and condvar
fields; the calls are independent and unbounded — `n` successive calls all
succeed and leave the counter at its initial value plus `n`. -/
theorem get_increments_and_aliases (b : Blocker) (m : Mem Nat)
    (hp : m.poisoned b.mutexPtr = false) :
    ((Blocker.get b m).map
        (fun p => (p.1.data, p.1.ref_count, p.1.mutex, p.1.cond))
      = some (b.data, b.refCountPtr, b.mutexPtr, b.condPtr))
    ∧ ((Blocker.get b m).map (fun p => p.2.counters b.refCountPtr)
      = some (m.counters b.refCountPtr + 1))
    ∧ (∀ n, (Blocker.getN b n m).map (fun mm => mm.counters b.refCountPtr)
      = some (m.counters b.refCountPtr + n)) := by
  refine ⟨?_, ?_, fun n => getN_counts b n m hp⟩
  · rw [get_eq_of_not_poisoned b m hp, Option.map_some']
  · rw [get_eq_of_not_poisoned b m hp, Option.map_some']
    simp [Mem.setCounter, Function.update_same]

/-- Witness for C4 at a concrete guard and memory. -/
theorem get_increments_and_aliases_witness :
    ((Blocker.get (⟨0, 1, 2, 3⟩ : Blocker) initMem).map
        (fun p => (p.1.data, p.1.ref_count, p.1.mutex, p.1.cond))
      = some (0, 1, 2, 3))
    ∧ ((Blocker.getN (⟨0, 1, 2, 3⟩ : Blocker) 3 initMem).map
        (fun mm => mm.counters 1) = some 3) :=
  ⟨(get_increments_and_aliases ⟨0, 1, 2, 3⟩ initMem rfl).1,
   (get_increments_and_aliases ⟨0, 1, 2, 3⟩ initMem rfl).2.2 3⟩

/-- C5: a handle's drop, run once, decrements the shared counter by exactly
one under the mutex and emits exactly one notification, targeted at the
handle's condvar; and in the per-handle lifecycle no transition leaves
`released`, so along any transition chain the `released` state occurs at
most once — it is entered exactly once, by the single `Drop`. -/
theorem release_decrements_and_notifies_once (r : Blockref) (m : Mem Nat)
    (hp : m.poisoned r.mutex = false) (hpos : 0 < m.counters r.ref_count) :
    ((Blockref.drop r m).map (fun p => p.2) = some [r.cond])
    ∧ ((Blockref.drop r m).map (fun p => p.1.counters r.ref_count + 1)
      = some (m.counters r.ref_count))
    ∧ (∀ t, ¬ HandleStep HandleState.released t)
    ∧ (∀ l, List.Chain' HandleStep l →
        ∀ i j (hi : i < l.length) (hj : j < l.length),
          l.get ⟨i, hi⟩ = HandleState.released →
          l.get ⟨j, hj⟩ = HandleState.released → i = j) := by
  have hterm : ∀ t, ¬ HandleStep HandleState.released t := by
    intro t h
    cases h
  refine ⟨?_, ?_, hterm, ?_⟩
  · simp [Blockref.drop, lockUnwrap, hp]
  · simp [Blockref.drop, lockUnwrap, hp, Mem.setCounter, Function.update_same]
    omega
  · intro l hc i j hi hj hri hrj
    have hlast : ∀ i (hi : i < l.length),
        l.get ⟨i, hi⟩ = HandleState.released → i = l.length - 1 := by
      intro i hi hrel
      by_contra hne
      have hi1 : i < l.length - 1 := by omega
      have hstep := List.chain'_iff_get.mp hc i hi1
      rw [hrel] at hstep
      exact hterm _ hstep
    rw [hlast i hi hri, hlast j hj hrj]

/-- Witness for C5 at a concrete handle and memory. -/
theorem release_decrements_and_notifies_once_witness :
    ((Blockref.drop (⟨0, 1, 2, 3⟩ : Blockref) oneMem).map (fun p => p.2)
      = some [3])
    ∧ ((Blockref.drop (⟨0, 1, 2, 3⟩ : Blockref) oneMem).map
        (fun p => p.1.counters 1 + 1) = some (oneMem.counters 1)) :=
  ⟨(release_decrements_and_notifies_once ⟨0, 1, 2, 3⟩ oneMem rfl (by decide)).1,
   (release_decrements_and_notifies_once ⟨0, 1, 2, 3⟩ oneMem rfl (by decide)).2.1⟩

/-- C7: a handle dereferences to exactly the value the guard was built
around: the guard's `data` pointer is the constructor's argument, the
handle minted by `get` dereferences (read-only) to the content of that very
cell, and neither `get` nor a handle's release ever writes a `T` cell, so
the referent is unchanged at any point of the handle's lifetime. -/
theorem deref_yields_constructed_value (d rc mx cv : Addr) (m : Mem Nat) :
    ((Blocker.new d rc mx cv m).1.data = d)
    ∧ ((Blocker.get (Blocker.new d rc mx cv m).1 (Blocker.new d rc mx cv m).2).map
        (fun p => (p.1.data, Blockref.deref p.1 p.2)) = some (d, m.heap d))
    ∧ (∀ (r : Blockref) (m1 : Mem Nat), m1.poisoned r.mutex = false →
        (Blockref.drop r m1).map (fun p => p.1.heap) = some m1.heap) := by
  refine ⟨rfl, ?_, ?_⟩
  · have hp : (Blocker.new d rc mx cv m).2.poisoned
        (Blocker.new d rc mx cv m).1.mutexPtr = false := by
      simp [Blocker.new, Function.update_same]
    rw [get_eq_of_not_poisoned _ _ hp, Option.map_some']
    rfl
  · intro r m1 hp1
    simp [Blockref.drop, lockUnwrap, hp1, Mem.setCounter]

/-- Witness for C7 at a concrete construction. -/
theorem deref_yields_constructed_value_witness :
    ((Blocker.new 7 1 2 3 initMem).1.data = 7)
    ∧ ((Blockref.drop (⟨0, 1, 2, 3⟩ : Blockref) oneMem).map (fun p => p.1.heap)
      = some oneMem.heap) :=
  ⟨(deref_yields_constructed_value 7 1 2 3 initMem).1,
   (deref_yields_constructed_value 7 1 2 3 initMem).2.2 ⟨0, 1, 2, 3⟩ oneMem rfl⟩

/-- C8: once the mutex is poisoned, every subsequent operation panics
rather than proceeding: `get` (the acquire path) and a handle's drop (the
release path) hit `lock().unwrap()` and panic, and the guard's drop (the
teardown path) panics as well — even when a wake observing a zero counter
is available, the teardown does not proceed to wait or return. -/
theorem poisoned_mutex_panics (b : Blocker) (r : Blockref) (m : Mem Nat)
    (wakes : List Nat) (hb : m.poisoned b.mutexPtr = true)
    (hr : m.poisoned r.mutex = true) :
    Blocker.get b m = none
    ∧ Blockref.drop r m = none
    ∧ Blocker.drop b m wakes = DropResult.panicked := by
  refine ⟨?_, ?_, ?_⟩ <;>
    simp [Blocker.get, Blockref.new, Blockref.drop, Blocker.drop, lockUnwrap,
      hb, hr]

/-- Witness for C8 at a poisoned memory. -/
theorem poisoned_mutex_panics_witness :
    Blocker.get (⟨0, 1, 2, 3⟩ : Blocker) poisonMem = none
    ∧ Blockref.drop (⟨0, 1, 2, 3⟩ : Blockref) poisonMem = none
    ∧ Blocker.drop (⟨0, 1, 2, 3⟩ : Blocker) poisonMem [0] = DropResult.panicked :=
  poisoned_mutex_panics ⟨0, 1, 2, 3⟩ ⟨0, 1, 2, 3⟩ poisonMem [0] rfl rfl

/-- C10: the frame of `get`: minting a handle writes only through the
guard's refcount pointer — every `T` cell, every poison bit, and every
counter cell other than the guard's own are left unchanged. -/
theorem get_frame (b : Blocker) (m : Mem Nat) (r : Blockref) (m2 : Mem Nat)
    (h : Blocker.get b m = some (r, m2)) :
    m2.heap = m.heap
    ∧ m2.poisoned = m.poisoned
    ∧ (∀ a, a ≠ b.refCountPtr → m2.counters a = m.counters a) := by
  rw [Blocker.get, Blockref.new, lockUnwrap] at h
  by_cases hp : m.poisoned b.mutexPtr
  · simp [hp] at h
  · simp [hp] at h
    obtain ⟨-, hm⟩ := h
    subst hm
    refine ⟨rfl, rfl, fun a ha => ?_⟩
    simp only [Mem.setCounter]
    exact Function.update_noteq ha _ _

/-- Witness for C10 at a concrete guard and memory. -/
theorem get_frame_witness :
    (initMem.setCounter 1 (initMem.counters 1 + 1)).heap = initMem.heap
    ∧ (initMem.setCounter 1 (initMem.counters 1 + 1)).counters 5
        = initMem.counters 5 :=
  ⟨(get_frame ⟨0, 1, 2, 3⟩ initMem ⟨0, 1, 2, 3⟩
      (initMem.setCounter 1 (initMem.counters 1 + 1)) rfl).1,
   (get_frame ⟨0, 1, 2, 3⟩ initMem ⟨0, 1, 2, 3⟩
      (initMem.setCounter 1 (initMem.counters 1 + 1)) rfl).2.2 5 (by decide)⟩

/-! Lemmas for the micro-step machine. -/

/-- Running an appended step list runs the two parts in sequence. -/
theorem microRun_append (a b : List MicroStep) (s : CoreSt) :
    microRun (a ++ b) s = microRun b (microRun a s) := by
  induction a generalizing s with
  | nil => rfl
  | cons st rest ih => rw [List.cons_append, microRun, microRun, ih]

/-- Lock discipline over an appended step list splits into the parts. -/
theorem lockDisciplined_append (a b : List MicroStep) (s : CoreSt) :
    lockDisciplined (a ++ b) s
      = (lockDisciplined a s && lockDisciplined b (microRun a s)) := by
  induction a generalizing s with
  | nil => simp [lockDisciplined, microRun]
  | cons st rest ih =>
    rw [List.cons_append, lockDisciplined, lockDisciplined, microRun, ih,
      Bool.and_assoc]

/-- Underflow freedom over an appended step list splits into the parts. -/
theorem noUnderflow_append (a b : List MicroStep) (s : CoreSt) :
    noUnderflow (a ++ b) s
      = (noUnderflow a s && noUnderflow b (microRun a s)) := by
  induction a generalizing s with
  | nil => simp [noUnderflow, microRun]
  | cons st rest ih =>
    rw [List.cons_append, noUnderflow, noUnderflow, microRun, ih,
      Bool.and_assoc]

/-- Micro-steps of an appended operation list. -/
theorem opsSteps_append (a b : List Op) :
    opsSteps (a ++ b) = opsSteps a ++ opsSteps b := by
  induction a with
  | nil => rfl
  | cons op rest ih =>
    rw [List.cons_append, opsSteps, opsSteps, ih, List.append_assoc]

/-- Running `n` acquires from an unlocked state adds `n` to the counter,
respects the lock discipline, and never decrements. -/
theorem acquires_run (n c : Nat) :
    microRun (opsSteps (List.replicate n Op.acquire)) ⟨c, false⟩ = ⟨c + n, false⟩
    ∧ lockDisciplined (opsSteps (List.replicate n Op.acquire)) ⟨c, false⟩ = true
    ∧ noUnderflow (opsSteps (List.replicate n Op.acquire)) ⟨c, false⟩ = true := by
  induction n generalizing c with
  | zero => exact ⟨rfl, rfl, rfl⟩
  | succ n ih =>
    obtain ⟨h1, h2, h3⟩ := ih (c + 1)
    rw [List.replicate_succ, opsSteps]
    have hblock : microRun (opSteps Op.acquire) ⟨c, false⟩ = ⟨c + 1, false⟩ := rfl
    refine ⟨?_, ?_, ?_⟩
    · rw [microRun_append, hblock, h1]
      congr 1
      omega
    · rw [lockDisciplined_append, hblock, h2]
      rfl
    · rw [noUnderflow_append, hblock, h3]
      rfl

/-- Running `k ≤ c` releases from an unlocked state with counter `c`
subtracts `k`, respects the lock discipline, and never underflows. -/
theorem releases_run (k c : Nat) (h : k ≤ c) :
    microRun (opsSteps (List.replicate k Op.release)) ⟨c, false⟩ = ⟨c - k, false⟩
    ∧ lockDisciplined (opsSteps (List.replicate k Op.release)) ⟨c, false⟩ = true
    ∧ noUnderflow (opsSteps (List.replicate k Op.release)) ⟨c, false⟩ = true := by
  induction k generalizing c with
  | zero => exact ⟨rfl, rfl, rfl⟩
  | succ k ih =>
    have hc : 0 < c := by omega
    obtain ⟨h1, h2, h3⟩ := ih (c - 1) (by omega)
    rw [List.replicate_succ, opsSteps]
    have hblock : microRun (opSteps Op.release) ⟨c, false⟩ = ⟨c - 1, false⟩ := rfl
    refine ⟨?_, ?_, ?_⟩
    · rw [microRun_append, hblock, h1]
      congr 1
      omega
    · rw [lockDisciplined_append, hblock, h2]
      rfl
    · rw [noUnderflow_append, hblock, h3]
      simp [opSteps, noUnderflow, microStep, hc]

/-- C3: refcount accuracy and lock discipline: running the micro-steps of
`N` acquires (`Blockref::new` critical sections) followed by `M ≤ N`
releases (`Drop for Blockref` critical sections) from counter zero leaves
the counter at exactly `N - M` with the mutex free; every write to the
counter along that run happens while the mutex is held; no decrement ever
acts on a zero counter, so the mathematical count never drops below zero;
and at every block boundary (outside the critical sections) the counter
equals the number of live handles: `i` after the first `i` acquires, and
`N - j` after `j ≤ M` releases. -/
theorem refcount_accuracy (N M : Nat) (h : M ≤ N) :
    microRun (opsSteps (List.replicate N Op.acquire
        ++ List.replicate M Op.release)) ⟨0, false⟩ = ⟨N - M, false⟩
    ∧ lockDisciplined (opsSteps (List.replicate N Op.acquire
        ++ List.replicate M Op.release)) ⟨0, false⟩ = true
    ∧ noUnderflow (opsSteps (List.replicate N Op.acquire
        ++ List.replicate M Op.release)) ⟨0, false⟩ = true
    ∧ (∀ i, microRun (opsSteps (List.replicate i Op.acquire)) ⟨0, false⟩
        = ⟨i, false⟩)
    ∧ (∀ j, j ≤ M →
        microRun (opsSteps (List.replicate N Op.acquire
          ++ List.replicate j Op.release)) ⟨0, false⟩ = ⟨N - j, false⟩) := by
  obtain ⟨a1, a2, a3⟩ := acquires_run N 0
  have hN : (0 : Nat) + N = N := by omega
  rw [hN] at a1
  obtain ⟨r1, r2, r3⟩ := releases_run M N h
  rw [opsSteps_append]
  refine ⟨?_, ?_, ?_, ?_, ?_⟩
  · rw [microRun_append, a1, r1]
  · rw [lockDisciplined_append, a1, a2, r2]
    rfl
  · rw [noUnderflow_append, a1, a3, r3]
    rfl
  · intro i
    have := (acquires_run i 0).1
    have hi : (0 : Nat) + i = i := by omega
    rwa [hi] at this
  · intro j hj
    rw [opsSteps_append, microRun_append, a1, (releases_run j N (hj.trans h)).1]

/-- Witness for C3 at `N = 3`, `M = 2`. -/
theorem refcount_accuracy_witness :
    microRun (opsSteps (List.replicate 3 Op.acquire
        ++ List.replicate 2 Op.release)) ⟨0, false⟩ = ⟨3 - 2, false⟩
    ∧ lockDisciplined (opsSteps (List.replicate 3 Op.acquire
        ++ List.replicate 2 Op.release)) ⟨0, false⟩ = true
    ∧ noUnderflow (opsSteps (List.replicate 3 Op.acquire
        ++ List.replicate 2 Op.release)) ⟨0, false⟩ = true
    ∧ microRun (opsSteps (List.replicate 2 Op.acquire)) ⟨0, false⟩ = ⟨2, false⟩
    ∧ microRun (opsSteps (List.replicate 3 Op.acquire
        ++ List.replicate 1 Op.release)) ⟨0, false⟩ = ⟨3 - 1, false⟩ :=
  ⟨(refcount_accuracy 3 2 (by decide)).1,
   (refcount_accuracy 3 2 (by decide)).2.1,
   (refcount_accuracy 3 2 (by decide)).2.2.1,
   (refcount_accuracy 3 2 (by decide)).2.2.2.1 2,
   (refcount_accuracy 3 2 (by decide)).2.2.2.2 1 (by decide)⟩
